import Mathlib

/-!
Verification of the Trajectory Comparison & Grading Engine
(`disected_mmDTW.py`) against its natural-language specification.

Trajectories are ordered lists of 3D sample points; all numeric values are
embedded as exact rationals `ℚ` (the Python code computes with IEEE doubles;
the claims under study are about exact threshold and boundary behaviour, so
the rational embedding is the faithful one).  The score / RMSE layer, which
involves `sqrt` and `exp`, lives in `ℝ`.

Python `float` NaN semantics, where they matter (`get_rom_grade` on a NaN
ratio), are modelled by `Option ℚ`: `none` is NaN, and every ordered
comparison against `none` is `false`, exactly as IEEE-754 prescribes.
-/

set_option maxRecDepth 10000

/-- A 3D sample point (x, y, z), exact-rational embedding of one row of the
`N×3` numpy arrays the engine consumes. -/
structure Vec3 where
  x : ℚ
  y : ℚ
  z : ℚ
deriving DecidableEq, Repr

/-- Maximum of a list of rationals, seeded with the head (maximum of the
values of one axis; `np.max` along axis 0). -/
def listMax (l : List ℚ) : ℚ := l.foldl max (l.headD 0)

/-- Minimum of a list of rationals, seeded with the head (`np.min` along
axis 0). -/
def listMin (l : List ℚ) : ℚ := l.foldl min (l.headD 0)

/-- Peak-to-peak range per axis: `np.ptp(data, axis=0)`, i.e. per-axis
`max - min`. -/
def ptp3 (t : List Vec3) : Vec3 :=
  ⟨listMax (t.map Vec3.x) - listMin (t.map Vec3.x),
   listMax (t.map Vec3.y) - listMin (t.map Vec3.y),
   listMax (t.map Vec3.z) - listMin (t.map Vec3.z)⟩

/-- The in-place epsilon substitution `ref_range[ref_range == 0] = 1e-6`
from `calculate_rom_metrics`: each component that is exactly zero is
replaced by `1e-6`. -/
def epsSubst (v : Vec3) : Vec3 :=
  ⟨if v.x = 0 then 1/1000000 else v.x,
   if v.y = 0 then 1/1000000 else v.y,
   if v.z = 0 then 1/1000000 else v.z⟩

/-- Mean of the three components of a triple (`np.mean` of a length-3
array). -/
def mean3 (v : Vec3) : ℚ := (v.x + v.y + v.z) / 3

/-- Embedding of `calculate_rom_metrics(ref_data, pat_data)`
(disected_mmDTW.py lines 47-62): per-axis peak-to-peak ranges, the zero
components of the reference range replaced by `1e-6`, per-axis ratios
`pat_range / ref_range`, and their mean.  Returns
`(avg_rom_ratio, ratios)`. -/
def calculate_rom_metrics (ref_data pat_data : List Vec3) : ℚ × Vec3 :=
  let ref_range := ptp3 ref_data
  let pat_range := ptp3 pat_data
  let ref_range' := epsSubst ref_range
  let ratios : Vec3 :=
    ⟨pat_range.x / ref_range'.x, pat_range.y / ref_range'.y,
     pat_range.z / ref_range'.z⟩
  (mean3 ratios, ratios)

/-- IEEE comparison `a < c` where `a` may be NaN (`none`): every ordered
comparison against NaN is false. -/
def fcLt (a : Option ℚ) (c : ℚ) : Prop :=
  match a with
  | none => False
  | some q => q < c

/-- IEEE comparison `a > c` where `a` may be NaN (`none`). -/
def fcGt (a : Option ℚ) (c : ℚ) : Prop :=
  match a with
  | none => False
  | some q => c < q

/-- IEEE comparison `a ≤ c` where `a` may be NaN (`none`). -/
def fcLe (a : Option ℚ) (c : ℚ) : Prop :=
  match a with
  | none => False
  | some q => q ≤ c

/-- IEEE comparison `a ≥ c` where `a` may be NaN (`none`). -/
def fcGe (a : Option ℚ) (c : ℚ) : Prop :=
  match a with
  | none => False
  | some q => c ≤ q

instance : ∀ (a : Option ℚ) (c : ℚ), Decidable (fcLt a c)
  | none, _ => isFalse (fun h => h)
  | some q, c => inferInstanceAs (Decidable (q < c))

instance : ∀ (a : Option ℚ) (c : ℚ), Decidable (fcGt a c)
  | none, _ => isFalse (fun h => h)
  | some q, c => inferInstanceAs (Decidable (c < q))

instance : ∀ (a : Option ℚ) (c : ℚ), Decidable (fcLe a c)
  | none, _ => isFalse (fun h => h)
  | some q, c => inferInstanceAs (Decidable (q ≤ c))

instance : ∀ (a : Option ℚ) (c : ℚ), Decidable (fcGe a c)
  | none, _ => isFalse (fun h => h)
  | some q, c => inferInstanceAs (Decidable (c ≤ q))

/-- Embedding of `get_rom_grade(ratio)` (disected_mmDTW.py lines 64-86).
The input is an `Option ℚ` so that the NaN case is representable (`none`);
each Python `if` is kept with its comparison, all of which are false on
NaN; when every branch is skipped the Python function returns `None`,
embedded as `none`. -/
def get_rom_grade (ratio : Option ℚ) : Option ℤ :=
  if fcLt ratio 0.50 ∨ fcGt ratio 1.50 then some 0
  else if fcGe ratio 0.95 ∧ fcLe ratio 1.05 then some 10
  else if fcLt ratio 0.95 then
    if fcGe ratio 0.90 then some 9
    else if fcGe ratio 0.70 then some 8
    else some 7
  else if fcGt ratio 1.05 then
    if fcLe ratio 1.10 then some 9
    else if fcLe ratio 1.30 then some 8
    else some 7
  else none

/-- The ROM grading table exactly as the specification (section 4.5) writes
it, row by row; used only to compare against `get_rom_grade`.  The final
`else 7` is the table's last row `1.30 < ratio ≤ 1.50` (the eight rows are
exhaustive over `ℚ`). -/
def rom_grade_spec (r : ℚ) : ℤ :=
  if r < 0.50 ∨ 1.50 < r then 0
  else if 0.95 ≤ r ∧ r ≤ 1.05 then 10
  else if 0.90 ≤ r ∧ r < 0.95 then 9
  else if 0.70 ≤ r ∧ r < 0.90 then 8
  else if 0.50 ≤ r ∧ r < 0.70 then 7
  else if 1.05 < r ∧ r ≤ 1.10 then 9
  else if 1.10 < r ∧ r ≤ 1.30 then 8
  else 7

/-- Embedding of `get_shape_grade(rmse, limit)` (disected_mmDTW.py lines
88-101): grade 0 above the limit, otherwise five equal steps graded
10 down to 6 with inclusive upper boundaries. -/
def get_shape_grade (rmse limit : ℚ) : ℤ :=
  if limit < rmse then 0
  else
    let step := limit / 5
    if rmse ≤ step then 10
    else if rmse ≤ step * 2 then 9
    else if rmse ≤ step * 3 then 8
    else if rmse ≤ step * 4 then 7
    else 6

/-- Qualitative ROM status labels appended by `generate_therapist_report`
(disected_mmDTW.py lines 155-164). -/
inductive RomStatus where
  | criticalFailure
  | excellent
  | restricted
  | excessive
  | mildDeviation
deriving DecidableEq, Repr

/-- Embedding of the ROM status cascade of `generate_therapist_report`
(disected_mmDTW.py lines 155-164): grade checks first, then ratio
checks. -/
def rom_status (avg_rom_grade ratioAvg : ℚ) : RomStatus :=
  if avg_rom_grade < 1 then .criticalFailure
  else if 9 ≤ avg_rom_grade then .excellent
  else if ratioAvg < 0.90 then .restricted
  else if 1.10 < ratioAvg then .excessive
  else .mildDeviation

/-- Mean of the per-axis integer ROM grades, `np.mean(rom_axis_grades)`
(disected_mmDTW.py line 240 in `run_analysis`). -/
def avg_rom_grade_of (gs : List ℤ) : ℚ := ((gs.sum : ℚ)) / gs.length

/-- Mean of a list of per-axis grades of which some may be Python `None`
(`none`): `np.mean` over a list containing `None` does not produce a
number (the object-dtype sum fails), embedded as `none`. -/
def mean_opt_grades (gs : List (Option ℤ)) : Option ℚ :=
  if gs.all Option.isSome then
    some (((gs.filterMap id).sum : ℚ) / gs.length)
  else none

/-- Per-trajectory centroid `np.mean(template, axis=0)` (disected_mmDTW.py
lines 107-109). -/
def centroid (t : List Vec3) : Vec3 :=
  ⟨(t.map Vec3.x).sum / t.length,
   (t.map Vec3.y).sum / t.length,
   (t.map Vec3.z).sum / t.length⟩

/-- Mean-centering of a trajectory, `template - np.mean(template, axis=0)`
(disected_mmDTW.py lines 107-109); produces a fresh derived sequence. -/
def centerTraj (t : List Vec3) : List Vec3 :=
  t.map (fun p =>
    ⟨p.x - (centroid t).x, p.y - (centroid t).y, p.z - (centroid t).z⟩)

/-- Squared Euclidean distance between two 3D points, the DTW local cost
over the three axes combined. -/
def sqDist (a b : Vec3) : ℚ :=
  (a.x - b.x) ^ 2 + (a.y - b.y) ^ 2 + (a.z - b.z) ^ 2

/-- Minimum of two optional costs, `none` meaning "cell unreachable /
infinite". -/
def minO : Option ℚ → Option ℚ → Option ℚ
  | none, y => y
  | x, none => x
  | some a, some b => some (min a b)

/-- Minimum of three optional costs. -/
def minO3 (x y z : Option ℚ) : Option ℚ := minO x (minO y z)

/-- Sakoe-Chiba band membership `natAbs (i - j) ≤ r`. -/
def inBand (r i j : ℕ) : Bool := decide (max i j - min i j ≤ r)

/-- Point lookup with an all-zero default (indices produced by the DP are
always in range). -/
def ptAt (t : List Vec3) (i : ℕ) : Vec3 := t.getD i ⟨0, 0, 0⟩

/-- Modelled from the spec: the cumulative-cost table of the banded DTW
dynamic program of section 4.2 (the source delegates this to the
third-party `tslearn.metrics.dtw_path`, whose code is not part of this
repository).  Cell `(i, j)` holds the local squared-distance cost plus the
minimum reachable predecessor cost among `(i-1,j-1)`, `(i-1,j)`,
`(i,j-1)`; out-of-band cells are `none`.  The first argument is
structural-recursion fuel, sufficient whenever `fuel ≥ i + j + 1`. -/
def dtwAccF (a b : List Vec3) (r : ℕ) : ℕ → ℕ → ℕ → Option ℚ
  | 0, _, _ => none
  | _ + 1, 0, 0 =>
      if inBand r 0 0 then some (sqDist (ptAt a 0) (ptAt b 0)) else none
  | fuel + 1, i + 1, 0 =>
      if inBand r (i + 1) 0 then
        (dtwAccF a b r fuel i 0).map (· + sqDist (ptAt a (i + 1)) (ptAt b 0))
      else none
  | fuel + 1, 0, j + 1 =>
      if inBand r 0 (j + 1) then
        (dtwAccF a b r fuel 0 j).map (· + sqDist (ptAt a 0) (ptAt b (j + 1)))
      else none
  | fuel + 1, i + 1, j + 1 =>
      if inBand r (i + 1) (j + 1) then
        (minO3 (dtwAccF a b r fuel i j)
               (dtwAccF a b r fuel i (j + 1))
               (dtwAccF a b r fuel (i + 1) j)).map
          (· + sqDist (ptAt a (i + 1)) (ptAt b (j + 1)))
      else none

/-- Cumulative banded-DTW cost at cell `(i, j)` (adequate fuel supplied). -/
def dtwAcc (a b : List Vec3) (r i j : ℕ) : Option ℚ :=
  dtwAccF a b r (i + j + 1) i j

/-- Modelled from the spec: backtracking of the optimal warping path of
section 4.2 (third-party `tslearn` code, absent from the repository), in
reverse order, with the spec's tie-break: prefer the diagonal predecessor
`(i-1,j-1)`, then `(i-1,j)`, then `(i,j-1)`.  Fuel-structured like
`dtwAccF`. -/
def dtwPathRevF (a b : List Vec3) (r : ℕ) : ℕ → ℕ → ℕ → List (ℕ × ℕ)
  | 0, _, _ => []
  | _ + 1, 0, 0 => [(0, 0)]
  | fuel + 1, i + 1, 0 => (i + 1, 0) :: dtwPathRevF a b r fuel i 0
  | fuel + 1, 0, j + 1 => (0, j + 1) :: dtwPathRevF a b r fuel 0 j
  | fuel + 1, i + 1, j + 1 =>
      let diag := dtwAcc a b r i j
      let up := dtwAcc a b r i (j + 1)
      match minO3 diag up (dtwAcc a b r (i + 1) j) with
      | none => (i + 1, j + 1) :: dtwPathRevF a b r fuel i j
      | some mv =>
          if diag = some mv then (i + 1, j + 1) :: dtwPathRevF a b r fuel i j
          else if up = some mv then
            (i + 1, j + 1) :: dtwPathRevF a b r fuel i (j + 1)
          else (i + 1, j + 1) :: dtwPathRevF a b r fuel (i + 1) j

/-- Effective band radius: widened to the length difference so the end
cell is always reachable (spec section 4.2). -/
def effRadius (a b : List Vec3) (radius : ℕ) : ℕ :=
  max radius (max a.length b.length - min a.length b.length)

/-- Modelled from the spec: the optimal warping path returned by
`dtw_path` (third-party `tslearn`), in forward order, from `(0,0)` to
`(n-1, m-1)`. -/
def dtw_path_of (a b : List Vec3) (radius : ℕ) : List (ℕ × ℕ) :=
  let r := effRadius a b radius
  (dtwPathRevF a b r (a.length + b.length) (a.length - 1) (b.length - 1)).reverse

/-- Modelled from the spec: the cumulative cost at the end cell of the
banded DTW (the square of `tslearn`'s returned `sim_dist`). -/
def dtw_acc_cost (a b : List Vec3) (radius : ℕ) : ℚ :=
  (dtwAcc a b (effRadius a b radius) (a.length - 1) (b.length - 1)).getD 0

/-- Sum of squared per-axis errors along the warping path, the
`sq_err_x/y/z` accumulation of disected_mmDTW.py lines 121-126; the axis
is selected by the projection `f`. -/
def pathSqErr (f : Vec3 → ℚ) (a b : List Vec3) (path : List (ℕ × ℕ)) : ℚ :=
  (path.map (fun ij => (f (ptAt a ij.1) - f (ptAt b ij.2)) ^ 2)).sum

noncomputable section

/-- Round-half-to-even to an integer, the semantics of Python's built-in
`round` on a real value: fractional part below one half rounds down,
above one half rounds up, exactly one half rounds to the even
neighbour. -/
def roundHE (x : ℝ) : ℤ :=
  if Int.fract x < 1/2 then ⌊x⌋
  else if 1/2 < Int.fract x then ⌊x⌋ + 1
  else if Even ⌊x⌋ then ⌊x⌋ else ⌊x⌋ + 1

/-- Python's `round(x, 2)`: round-half-to-even at two decimal places. -/
def pyRound2 (x : ℝ) : ℝ := (roundHE (x * 100) : ℝ) / 100

/-- The score transform of disected_mmDTW.py lines 132-135:
`round(100 * exp(-sensitivity * global_rmse), 2)`. -/
def final_score (sensitivity rmse : ℝ) : ℝ :=
  pyRound2 (100 * Real.exp (-sensitivity * rmse))

/-- Result record of `calculate_mdtw_with_sensitivity`: the rounded score,
the global RMSE and the per-axis RMSE triple. -/
structure MdtwResult where
  score : ℝ
  global_rmse : ℝ
  axis_rmse : ℝ × ℝ × ℝ

/-- Embedding of `calculate_mdtw_with_sensitivity(template, query,
sensitivity, radius)` (disected_mmDTW.py lines 103-135): mean-centering of
both trajectories, banded DTW path and aggregate distance, global RMSE
`sim_dist / sqrt(path_length)`, per-axis RMSE recomputed from the points
along the path, and the exponentially decayed rounded score.  The source
performs no input or configuration validation: the function is total. -/
def calculate_mdtw_with_sensitivity (template query : List Vec3)
    (sensitivity : ℝ) (radius : ℕ) : MdtwResult :=
  let tc := centerTraj template
  let qc := centerTraj query
  let path := dtw_path_of tc qc radius
  let sim_dist : ℝ := Real.sqrt ((dtw_acc_cost tc qc radius : ℚ) : ℝ)
  let global_rmse := sim_dist / Real.sqrt (path.length : ℝ)
  { score := final_score sensitivity global_rmse
    global_rmse := global_rmse
    axis_rmse :=
      (Real.sqrt (((pathSqErr Vec3.x tc qc path / path.length : ℚ)) : ℝ),
       Real.sqrt (((pathSqErr Vec3.y tc qc path / path.length : ℚ)) : ℝ),
       Real.sqrt (((pathSqErr Vec3.z tc qc path / path.length : ℚ)) : ℝ)) }

end

/-- A stored numpy array: either an `N×3` trajectory or a length-3 float
vector (such as a per-axis range). -/
inductive HVal where
  | traj : List Vec3 → HVal
  | v3 : Vec3 → HVal
deriving DecidableEq, Repr

/-- An explicit array store: cells indexed by allocation order.  Used to
state the frame effect of the engine (which arrays each call reads,
allocates, or writes in place). -/
abbrev Heap := List HVal

/-- Allocation of a fresh array at the end of the store; returns the new
store and the fresh cell's index. -/
def halloc (h : Heap) (v : HVal) : Heap × ℕ := (h ++ [v], h.length)

/-- In-place write to an existing cell of the store. -/
def hwrite (h : Heap) (i : ℕ) (v : HVal) : Heap := h.set i v

/-- Read a trajectory array from the store. -/
def readTraj (h : Heap) (i : ℕ) : List Vec3 :=
  match h.getD i (.traj []) with
  | .traj t => t
  | .v3 _ => []

/-- Read a length-3 vector array from the store. -/
def readV3 (h : Heap) (i : ℕ) : Vec3 :=
  match h.getD i (.v3 ⟨0, 0, 0⟩) with
  | .v3 v => v
  | .traj _ => ⟨0, 0, 0⟩

/-- Statement-level embedding of `calculate_rom_metrics` over the explicit
array store (disected_mmDTW.py lines 47-62): `np.ptp` allocates a fresh
array for each range, the masked assignment
`ref_range[ref_range == 0] = 1e-6` writes in place to the freshly
allocated `ref_range` cell (not to an input), and the division
`pat_range / ref_range` allocates the ratios array.  The caller's two
input cells are only read. -/
def calculate_rom_metrics_heap (h : Heap) (refId patId : ℕ) :
    Heap × ℚ × Vec3 :=
  let ref_data := readTraj h refId
  let pat_data := readTraj h patId
  let ar := halloc h (.v3 (ptp3 ref_data))
  let ap := halloc ar.1 (.v3 (ptp3 pat_data))
  let h2 := hwrite ap.1 ar.2 (.v3 (epsSubst (readV3 ap.1 ar.2)))
  let ratios : Vec3 :=
    ⟨(readV3 h2 ap.2).x / (readV3 h2 ar.2).x,
     (readV3 h2 ap.2).y / (readV3 h2 ar.2).y,
     (readV3 h2 ap.2).z / (readV3 h2 ar.2).z⟩
  let af := halloc h2 (.v3 ratios)
  (af.1, mean3 ratios, ratios)

/-- Statement-level embedding of the mean-centering lines 107-109 of
`calculate_mdtw_with_sensitivity` over the explicit array store: each of
`template - np.mean(template, axis=0)` and
`query - np.mean(query, axis=0)` allocates a fresh derived array; the two
input cells are only read.  Returns the store and the indices of the two
centered arrays. -/
def center_heap (h : Heap) (tId qId : ℕ) : Heap × ℕ × ℕ :=
  let ac := halloc h (.traj (centerTraj (readTraj h tId)))
  let aq := halloc ac.1 (.traj (centerTraj (readTraj ac.1 qId)))
  (aq.1, ac.2, aq.2)

/-- The worked-scenario reference trajectory
`[(0,0,0), (1,0,0), (2,0,0)]` of the specification (section 8). -/
def scenarioRef : List Vec3 := [⟨0, 0, 0⟩, ⟨1, 0, 0⟩, ⟨2, 0, 0⟩]

/-- A template trajectory used to exercise the engine with a non-zero
error: two coincident points. -/
def pairT : List Vec3 := [⟨0, 0, 0⟩, ⟨0, 0, 0⟩]

/-- A query trajectory at distance 2 per aligned pair from `pairT` after
centering. -/
def pairQ : List Vec3 := [⟨-2, 0, 0⟩, ⟨2, 0, 0⟩]

/-! ### Helper lemmas -/

theorem foldl_min_le_foldl_max (l : List ℚ) :
    ∀ a b : ℚ, a ≤ b → l.foldl min a ≤ l.foldl max b := by
  induction l with
  | nil => intro a b h; exact h
  | cons x xs ih =>
    intro a b h
    exact ih _ _ (le_trans (min_le_left a x) (le_trans h (le_max_left b x)))

theorem listMin_le_listMax (l : List ℚ) : listMin l ≤ listMax l :=
  foldl_min_le_foldl_max l _ _ le_rfl

theorem ptp3_x_nonneg (t : List Vec3) : 0 ≤ (ptp3 t).x :=
  sub_nonneg.mpr (listMin_le_listMax (t.map Vec3.x))

theorem ptp3_y_nonneg (t : List Vec3) : 0 ≤ (ptp3 t).y :=
  sub_nonneg.mpr (listMin_le_listMax (t.map Vec3.y))

theorem ptp3_z_nonneg (t : List Vec3) : 0 ≤ (ptp3 t).z :=
  sub_nonneg.mpr (listMin_le_listMax (t.map Vec3.z))

theorem floor_le_roundHE (x : ℝ) : ⌊x⌋ ≤ roundHE x := by
  unfold roundHE
  split_ifs <;> omega

theorem roundHE_le_floor_add_one (x : ℝ) : roundHE x ≤ ⌊x⌋ + 1 := by
  unfold roundHE
  split_ifs <;> omega

theorem roundHE_intCast (n : ℤ) : roundHE (n : ℝ) = n := by
  unfold roundHE
  rw [Int.fract_intCast]
  norm_num

theorem roundHE_of_lt_half {x : ℝ} (h0 : 0 ≤ x) (h : x < 1/2) : roundHE x = 0 := by
  have hf : Int.fract x = x := Int.fract_eq_self.mpr ⟨h0, by linarith⟩
  have hfl : ⌊x⌋ = 0 := Int.floor_eq_zero_iff.mpr ⟨h0, by linarith⟩
  unfold roundHE
  rw [hf, if_pos h, hfl]

theorem roundHE_mono {x y : ℝ} (h : x ≤ y) : roundHE x ≤ roundHE y := by
  have hf : ⌊x⌋ ≤ ⌊y⌋ := Int.floor_le_floor h
  rcases lt_or_eq_of_le hf with hlt | heq
  · exact le_trans (roundHE_le_floor_add_one x)
      (le_trans (by omega) (floor_le_roundHE y))
  · have hfr : Int.fract x ≤ Int.fract y := by
      unfold Int.fract
      rw [heq]
      linarith
    unfold roundHE
    rw [heq]
    split_ifs <;> first | omega | (exfalso; linarith)

theorem pyRound2_mono {x y : ℝ} (h : x ≤ y) : pyRound2 x ≤ pyRound2 y := by
  unfold pyRound2
  have h1 := roundHE_mono (mul_le_mul_of_nonneg_right h (by norm_num : (0:ℝ) ≤ 100))
  have h2 : ((roundHE (x * 100) : ℤ) : ℝ) ≤ ((roundHE (y * 100) : ℤ) : ℝ) := by
    exact_mod_cast h1
  linarith

theorem pyRound2_of_small {x : ℝ} (h0 : 0 ≤ x) (h : x < 1/200) : pyRound2 x = 0 := by
  unfold pyRound2
  rw [roundHE_of_lt_half (mul_nonneg h0 (by norm_num)) (by linarith)]
  norm_num

theorem le_pyRound2 {n : ℤ} {x : ℝ} (h : (n : ℝ) ≤ x) : (n : ℝ) ≤ pyRound2 x := by
  unfold pyRound2
  have h1 : (100 * n : ℤ) ≤ ⌊x * 100⌋ := Int.le_floor.mpr (by push_cast; linarith)
  have h2 : (100 * n : ℤ) ≤ roundHE (x * 100) := le_trans h1 (floor_le_roundHE _)
  have h3 : ((100 * n : ℤ) : ℝ) ≤ (roundHE (x * 100) : ℝ) := by exact_mod_cast h2
  push_cast at h3
  linarith

theorem pyRound2_intCast (n : ℤ) : pyRound2 (n : ℝ) = n := by
  unfold pyRound2
  have hc : ((n : ℝ) * 100) = ((n * 100 : ℤ) : ℝ) := by push_cast; ring
  rw [hc, roundHE_intCast]
  push_cast
  ring

theorem two_le_exp_one : (2 : ℝ) ≤ Real.exp 1 :=
  le_of_lt (lt_trans (by norm_num) Real.exp_one_gt_d9)

theorem twentythousand_lt_exp_thirty : (20000 : ℝ) < Real.exp 30 := by
  have h1 : Real.exp 30 = Real.exp 1 ^ (30 : ℕ) := by
    rw [← Real.exp_nat_mul]
    norm_num
  have h3 : (2 : ℝ) ^ (30 : ℕ) ≤ Real.exp 1 ^ (30 : ℕ) :=
    pow_le_pow_left₀ (by norm_num) two_le_exp_one 30
  have h4 : (20000 : ℝ) < 2 ^ (30 : ℕ) := by norm_num
  linarith [h1 ▸ le_trans (le_of_lt h4) h3]

theorem getD_set_ne {α : Type} (l : List α) (j i : ℕ) (v d : α) (hij : j ≠ i) :
    (l.set j v).getD i d = l.getD i d := by
  simp [List.getD_eq_getD_get?, List.get?_eq_getElem?, List.getElem?_set_ne hij]

theorem getD_append_self {α : Type} (l : List α) (v d : α) :
    (l ++ [v]).getD l.length d = v := by
  rw [List.getD_append_right _ _ _ _ le_rfl]
  simp

theorem getD_set_self {α : Type} (l : List α) (j : ℕ) (v d : α) (hj : j < l.length) :
    (l.set j v).getD j d = v := by
  simp [List.getD_eq_getD_get?, List.get?_eq_getElem?, List.getElem?_set_eq_of_lt v hj]

/-- C5: on real (non-NaN) ratios `get_rom_grade` is a total pure function
agreeing with the specification's grading table row for row; every grade
it returns lies in {0, 7, 8, 9, 10}; ratios exactly 0.95 and 1.05 both map
to grade 10, and ratios 0.4999 and 1.5001 both map to grade 0. -/
theorem C5_rom_grade_total_and_table :
    (∀ r : ℚ, get_rom_grade (some r) = some (rom_grade_spec r)) ∧
    (∀ r : ℚ, rom_grade_spec r ∈ ({0, 7, 8, 9, 10} : Set ℤ)) ∧
    get_rom_grade (some 0.95) = some 10 ∧
    get_rom_grade (some 1.05) = some 10 ∧
    get_rom_grade (some 0.4999) = some 0 ∧
    get_rom_grade (some 1.5001) = some 0 := by
  have htab : ∀ r : ℚ, get_rom_grade (some r) = some (rom_grade_spec r) := by
    intro r
    by_cases h1 : r < 0.50
    · simp [get_rom_grade, rom_grade_spec, fcLt, fcGt, fcLe, fcGe, h1]
    by_cases h2 : 1.50 < r
    · simp [get_rom_grade, rom_grade_spec, fcLt, fcGt, fcLe, fcGe, h1, h2]
    by_cases h3 : 0.95 ≤ r ∧ r ≤ 1.05
    · simp [get_rom_grade, rom_grade_spec, fcLt, fcGt, fcLe, fcGe, h1, h2, h3.1, h3.2]
    by_cases h4 : r < 0.95
    · have h3' : ¬ (0.95 ≤ r) := by linarith
      by_cases h5 : 0.90 ≤ r
      · simp [get_rom_grade, rom_grade_spec, fcLt, fcGt, fcLe, fcGe, h1, h2, h3', h4, h5]
      by_cases h6 : 0.70 ≤ r
      · have h5' : r < 0.90 := by linarith [not_le.mp h5]
        simp [get_rom_grade, rom_grade_spec, fcLt, fcGt, fcLe, fcGe, h1, h2, h3', h4, h5, h6, h5']
      · have h0 : 0.50 ≤ r := by linarith [not_lt.mp h1]
        have h6' : r < 0.70 := not_le.mp h6
        simp [get_rom_grade, rom_grade_spec, fcLt, fcGt, fcLe, fcGe, h1, h2, h3', h4, h5, h6, h0, h6']
    · have h95 : 0.95 ≤ r := not_lt.mp h4
      have h7 : 1.05 < r := by
        rcases not_and_or.mp h3 with hbad | hgt
        · exact absurd h95 hbad
        · exact not_le.mp hgt
      have hn90 : ¬ r < 0.90 := by linarith
      have hn70 : ¬ r < 0.70 := by linarith
      by_cases h8 : r ≤ 1.10
      · simp [get_rom_grade, rom_grade_spec, fcLt, fcGt, fcLe, fcGe, h1, h2, h4, h7, h8,
          hn90, hn70, not_le.mpr h7]
      by_cases h9 : r ≤ 1.30
      · have h8' : 1.10 < r := not_le.mp h8
        simp [get_rom_grade, rom_grade_spec, fcLt, fcGt, fcLe, fcGe, h1, h2, h4, h7, h8, h9, h8',
          hn90, hn70, not_le.mpr h7]
      · have h9' : 1.30 < r := not_le.mp h9
        have h10 : r ≤ 1.50 := not_lt.mp h2
        simp [get_rom_grade, rom_grade_spec, fcLt, fcGt, fcLe, fcGe, h1, h2, h4, h7, h8, h9, h9',
          h10, hn90, hn70, not_le.mpr h7]
  refine ⟨htab, ?_, ?_, ?_, ?_, ?_⟩
  · intro r
    unfold rom_grade_spec
    split_ifs <;> norm_num
  · rw [htab]
    norm_num [rom_grade_spec]
  · rw [htab]
    norm_num [rom_grade_spec]
  · rw [htab]
    norm_num [rom_grade_spec]
  · rw [htab]
    norm_num [rom_grade_spec]

/-- C2 counterexample: with `limit = 5` an RMSE exactly equal to the limit
receives grade 6, not the claimed grade 0 (the failure test `rmse > limit`
is strict). -/
theorem C2_counterexample : get_shape_grade 5 5 ≠ 0 := by
  norm_num [get_shape_grade]

/-- C2 (amended): for every positive limit, `rmse > limit` gives grade 0;
an RMSE of exactly `limit` falls in the fifth step and gives grade 6 (not
0); `rmse = limit/5` and `rmse = 0` give grade 10; on `0 < rmse ≤ limit`
the grade is `11 - ceil(5*rmse/limit)` (steps have inclusive upper
boundaries), which always lies in [6, 10]. -/
theorem C2_shape_grade_steps (limit : ℚ) (hl : 0 < limit) :
    get_shape_grade limit limit = 6 ∧
    get_shape_grade (limit / 5) limit = 10 ∧
    get_shape_grade 0 limit = 10 ∧
    (∀ rmse : ℚ, limit < rmse → get_shape_grade rmse limit = 0) ∧
    (∀ rmse : ℚ, 0 < rmse → rmse ≤ limit →
      get_shape_grade rmse limit = 11 - ⌈5 * rmse / limit⌉) ∧
    (∀ rmse : ℚ, 0 ≤ rmse → rmse ≤ limit →
      get_shape_grade rmse limit ∈ ({6, 7, 8, 9, 10} : Set ℤ)) := by
  refine ⟨?_, ?_, ?_, ?_, ?_, ?_⟩
  · simp only [get_shape_grade]
    split_ifs <;> first | rfl | (exfalso; linarith)
  · simp only [get_shape_grade]
    split_ifs <;> first | rfl | (exfalso; linarith)
  · simp only [get_shape_grade]
    split_ifs <;> first | rfl | (exfalso; linarith)
  · intro rmse h
    simp only [get_shape_grade]
    rw [if_pos h]
  · intro rmse h0 hle
    simp only [get_shape_grade]
    split_ifs with ha hb hc hd he
    · exact absurd ha (not_lt.mpr hle)
    · have hch : ⌈5 * rmse / limit⌉ = 1 := by
        rw [Int.ceil_eq_iff]
        constructor
        · push_cast
          have hp : 0 < 5 * rmse / limit := by positivity
          linarith
        · push_cast
          rw [div_le_iff₀ hl]
          linarith
      rw [hch]
      norm_num
    · have hch : ⌈5 * rmse / limit⌉ = 2 := by
        rw [Int.ceil_eq_iff]
        constructor
        · push_cast
          rw [lt_div_iff₀ hl]
          linarith
        · push_cast
          rw [div_le_iff₀ hl]
          linarith
      rw [hch]
      norm_num
    · have hch : ⌈5 * rmse / limit⌉ = 3 := by
        rw [Int.ceil_eq_iff]
        constructor
        · push_cast
          rw [lt_div_iff₀ hl]
          linarith
        · push_cast
          rw [div_le_iff₀ hl]
          linarith
      rw [hch]
      norm_num
    · have hch : ⌈5 * rmse / limit⌉ = 4 := by
        rw [Int.ceil_eq_iff]
        constructor
        · push_cast
          rw [lt_div_iff₀ hl]
          linarith
        · push_cast
          rw [div_le_iff₀ hl]
          linarith
      rw [hch]
      norm_num
    · have hch : ⌈5 * rmse / limit⌉ = 5 := by
        rw [Int.ceil_eq_iff]
        constructor
        · push_cast
          rw [lt_div_iff₀ hl]
          linarith
        · push_cast
          rw [div_le_iff₀ hl]
          linarith
      rw [hch]
      norm_num
  · intro rmse h0 hle
    simp only [get_shape_grade]
    split_ifs <;> first | (exfalso; linarith) | norm_num

/-- C2 witness: the amended boundary facts instantiated at `limit = 10`
and sample RMSE values. -/
theorem C2_witness :
    get_shape_grade 10 10 = 6 ∧ get_shape_grade (10 / 5) 10 = 10 ∧
    get_shape_grade 0 10 = 10 ∧ get_shape_grade 11 10 = 0 ∧
    get_shape_grade 7 10 = 11 - ⌈5 * (7 : ℚ) / 10⌉ ∧
    get_shape_grade 7 10 ∈ ({6, 7, 8, 9, 10} : Set ℤ) := by
  obtain ⟨h1, h2, h3, h4, h5, h6⟩ := C2_shape_grade_steps 10 (by norm_num)
  exact ⟨h1, h2, h3, h4 11 (by norm_num), h5 7 (by norm_num) (by norm_num),
    h6 7 (by norm_num) (by norm_num)⟩

/-- C6: the ROM status label follows the cascade with grade checks taking
precedence over ratio checks (`avg < 1` critical failure; else `avg ≥ 9`
excellent — even if the ratio is far off; else ratio below 0.90 / above
1.10 / otherwise); per-axis grades `[10, 8, 0]` average to exactly 6 and
never yield a critical failure. -/
theorem C6_rom_status_policy :
    (∀ avg ratioAvg : ℚ, avg < 1 → rom_status avg ratioAvg = .criticalFailure) ∧
    (∀ avg ratioAvg : ℚ, 1 ≤ avg → 9 ≤ avg → rom_status avg ratioAvg = .excellent) ∧
    (∀ avg ratioAvg : ℚ, 1 ≤ avg → avg < 9 → ratioAvg < 0.90 →
      rom_status avg ratioAvg = .restricted) ∧
    (∀ avg ratioAvg : ℚ, 1 ≤ avg → avg < 9 → 0.90 ≤ ratioAvg → 1.10 < ratioAvg →
      rom_status avg ratioAvg = .excessive) ∧
    (∀ avg ratioAvg : ℚ, 1 ≤ avg → avg < 9 → 0.90 ≤ ratioAvg → ratioAvg ≤ 1.10 →
      rom_status avg ratioAvg = .mildDeviation) ∧
    avg_rom_grade_of [10, 8, 0] = 6 ∧
    (∀ ratioAvg : ℚ, rom_status (avg_rom_grade_of [10, 8, 0]) ratioAvg ≠ .criticalFailure) := by
  have havg : avg_rom_grade_of [10, 8, 0] = 6 := by
    norm_num [avg_rom_grade_of]
  refine ⟨?_, ?_, ?_, ?_, ?_, havg, ?_⟩
  · intro avg ratioAvg h
    simp only [rom_status]
    rw [if_pos h]
  · intro avg ratioAvg h1 h9
    simp only [rom_status]
    rw [if_neg (by linarith), if_pos h9]
  · intro avg ratioAvg h1 h9 hr
    simp only [rom_status]
    rw [if_neg (by linarith), if_neg (by linarith), if_pos hr]
  · intro avg ratioAvg h1 h9 hr1 hr2
    simp only [rom_status]
    rw [if_neg (by linarith), if_neg (by linarith), if_neg (by linarith), if_pos hr2]
  · intro avg ratioAvg h1 h9 hr1 hr2
    simp only [rom_status]
    rw [if_neg (by linarith), if_neg (by linarith), if_neg (by linarith),
      if_neg (by linarith)]
  · intro ratioAvg
    rw [havg]
    simp only [rom_status]
    split_ifs <;> first | (exfalso; linarith) | simp

/-- C6 witness: each branch of the status cascade exercised at concrete
grades and ratios, including an average grade of 9 with a badly
restricted ratio still reporting EXCELLENT (grade checks win). -/
theorem C6_witness :
    rom_status 0 1 = .criticalFailure ∧
    rom_status 9 0.5 = .excellent ∧
    rom_status 6 0.5 = .restricted ∧
    rom_status 6 2 = .excessive ∧
    rom_status 6 1 = .mildDeviation ∧
    rom_status (avg_rom_grade_of [10, 8, 0]) 0.5 ≠ .criticalFailure := by
  obtain ⟨h1, h2, h3, h4, h5, _, h7⟩ := C6_rom_status_policy
  exact ⟨h1 0 1 (by norm_num), h2 9 0.5 (by norm_num) (by norm_num),
    h3 6 0.5 (by norm_num) (by norm_num) (by norm_num),
    h4 6 2 (by norm_num) (by norm_num) (by norm_num) (by norm_num),
    h5 6 1 (by norm_num) (by norm_num) (by norm_num) (by norm_num),
    h7 0.5⟩

/-- C7 counterexample: for the straight-line worked-scenario trajectory as
both reference and patient, the y-axis reference range is exactly zero and
no error occurs, but the resulting y ratio is 0 (the patient's zero range
divided by the epsilon) — a small number, not a large one. -/
theorem C7_counterexample :
    (ptp3 scenarioRef).y = 0 ∧
    ((calculate_rom_metrics scenarioRef scenarioRef).2).y = 0 := by
  constructor
  · norm_num [ptp3, listMax, listMin, scenarioRef]
  · norm_num [calculate_rom_metrics, ptp3, epsSubst, listMax, listMin, scenarioRef]

/-- C7 (amended): when the reference peak-to-peak range on an axis is
exactly zero, `calculate_rom_metrics` substitutes the epsilon `1e-6` and
divides, so it never faults and the resulting per-axis ratio is the finite
non-negative value `patient_range * 10^6` — large exactly when the patient
range on that axis is not tiny (and 0 when the patient range is 0). -/
theorem C7_zero_range_safety (ref pat : List Vec3) :
    ((ptp3 ref).x = 0 →
      ((calculate_rom_metrics ref pat).2).x = (ptp3 pat).x * 1000000 ∧
      0 ≤ ((calculate_rom_metrics ref pat).2).x) ∧
    ((ptp3 ref).y = 0 →
      ((calculate_rom_metrics ref pat).2).y = (ptp3 pat).y * 1000000 ∧
      0 ≤ ((calculate_rom_metrics ref pat).2).y) ∧
    ((ptp3 ref).z = 0 →
      ((calculate_rom_metrics ref pat).2).z = (ptp3 pat).z * 1000000 ∧
      0 ≤ ((calculate_rom_metrics ref pat).2).z) := by
  refine ⟨fun hx => ?_, fun hy => ?_, fun hz => ?_⟩
  · have he : (calculate_rom_metrics ref pat).2.x = (ptp3 pat).x * 1000000 := by
      simp only [calculate_rom_metrics, epsSubst, hx]
      norm_num
      rw [div_eq_mul_inv]
      norm_num
    exact ⟨he, he ▸ mul_nonneg (ptp3_x_nonneg pat) (by norm_num)⟩
  · have he : (calculate_rom_metrics ref pat).2.y = (ptp3 pat).y * 1000000 := by
      simp only [calculate_rom_metrics, epsSubst, hy]
      norm_num
      rw [div_eq_mul_inv]
      norm_num
    exact ⟨he, he ▸ mul_nonneg (ptp3_y_nonneg pat) (by norm_num)⟩
  · have he : (calculate_rom_metrics ref pat).2.z = (ptp3 pat).z * 1000000 := by
      simp only [calculate_rom_metrics, epsSubst, hz]
      norm_num
      rw [div_eq_mul_inv]
      norm_num
    exact ⟨he, he ▸ mul_nonneg (ptp3_z_nonneg pat) (by norm_num)⟩

/-- C7 witness: a constant reference (zero range on all three axes)
compared with a patient trajectory of ranges (1, 2, 2): every hypothesis
of the amended theorem discharged concretely. -/
theorem C7_witness :
    ((calculate_rom_metrics [⟨1, 2, 3⟩, ⟨1, 2, 3⟩] [⟨0, 0, 0⟩, ⟨1, 2, 2⟩]).2).x
        = (ptp3 [(⟨0, 0, 0⟩ : Vec3), ⟨1, 2, 2⟩]).x * 1000000 ∧
      0 ≤ ((calculate_rom_metrics [⟨1, 2, 3⟩, ⟨1, 2, 3⟩] [⟨0, 0, 0⟩, ⟨1, 2, 2⟩]).2).x ∧
    ((calculate_rom_metrics [⟨1, 2, 3⟩, ⟨1, 2, 3⟩] [⟨0, 0, 0⟩, ⟨1, 2, 2⟩]).2).y
        = (ptp3 [(⟨0, 0, 0⟩ : Vec3), ⟨1, 2, 2⟩]).y * 1000000 := by
  obtain ⟨hx, hy, _⟩ :=
    C7_zero_range_safety [⟨1, 2, 3⟩, ⟨1, 2, 3⟩] [⟨0, 0, 0⟩, ⟨1, 2, 2⟩]
  obtain ⟨hx1, hx2⟩ := hx (by norm_num [ptp3, listMax, listMin])
  obtain ⟨hy1, _⟩ := hy (by norm_num [ptp3, listMax, listMin])
  exact ⟨hx1, hx2, hy1⟩

/-- C10: a NaN ratio (`none`) falls through every branch of
`get_rom_grade` — all IEEE comparisons against NaN are false — so the
function returns Python `None` rather than any grade in {0, 7, 8, 9, 10},
and the subsequent mean over the per-axis grades does not produce a
number. -/
theorem C10_nan_falls_through :
    get_rom_grade none = none ∧
    (∀ g : ℤ, get_rom_grade none ≠ some g) ∧
    mean_opt_grades
      [get_rom_grade (some 1), get_rom_grade none, get_rom_grade (some 1)] = none := by
  have hnone : get_rom_grade none = none := by
    simp [get_rom_grade, fcLt, fcGt, fcLe, fcGe]
  refine ⟨hnone, fun g => by simp [hnone], ?_⟩
  rw [hnone]
  simp [mean_opt_grades]

/-- C1 counterexample: on the worked scenario (straight-line reference
compared with itself) the overall ROM ratio is not 1: the y and z axes
have zero patient range divided by the substituted epsilon, giving ratios
0, so the mean ratio is 1/3. -/
theorem C1_counterexample :
    (calculate_rom_metrics scenarioRef scenarioRef).1 ≠ 1 := by
  norm_num [calculate_rom_metrics, ptp3, epsSubst, mean3, listMax, listMin, scenarioRef]

/-- C1 (amended): the worked scenario yields score 100, global RMSE 0 and
shape grade 10 as claimed, but the overall ROM ratio is 1/3 (not 1.0) and
the per-axis ROM grades are [10, 0, 0] (not [10, 10, 10]): the y and z
ratios are 0 because the degenerate reference has zero range there. -/
theorem C1_worked_scenario :
    (calculate_mdtw_with_sensitivity scenarioRef scenarioRef 3 10).score = 100 ∧
    (calculate_mdtw_with_sensitivity scenarioRef scenarioRef 3 10).global_rmse = 0 ∧
    get_shape_grade 0 0.10 = 10 ∧
    (calculate_rom_metrics scenarioRef scenarioRef).1 = 1/3 ∧
    [get_rom_grade (some ((calculate_rom_metrics scenarioRef scenarioRef).2).x),
     get_rom_grade (some ((calculate_rom_metrics scenarioRef scenarioRef).2).y),
     get_rom_grade (some ((calculate_rom_metrics scenarioRef scenarioRef).2).z)] =
      [some 10, some 0, some 0] := by
  have hacc : dtw_acc_cost (centerTraj scenarioRef) (centerTraj scenarioRef) 10 = 0 := by
    norm_num [dtw_acc_cost, dtwAcc, dtwAccF, effRadius, inBand, minO3, minO, sqDist, ptAt,
      centerTraj, centroid, scenarioRef, List.getD]
  have hrmse : (calculate_mdtw_with_sensitivity scenarioRef scenarioRef 3 10).global_rmse = 0 := by
    simp only [calculate_mdtw_with_sensitivity]
    rw [hacc]
    norm_num [Real.sqrt_zero]
  have hscore : (calculate_mdtw_with_sensitivity scenarioRef scenarioRef 3 10).score = 100 := by
    have h0 : (calculate_mdtw_with_sensitivity scenarioRef scenarioRef 3 10).score
        = final_score 3 0 := by
      simp only [calculate_mdtw_with_sensitivity]
      rw [hacc]
      norm_num [Real.sqrt_zero]
    rw [h0]
    unfold final_score
    norm_num [Real.exp_zero]
    have hp := pyRound2_intCast 100
    norm_num at hp
    exact hp
  have hratios : (calculate_rom_metrics scenarioRef scenarioRef).2 = ⟨1, 0, 0⟩ := by
    norm_num [calculate_rom_metrics, ptp3, epsSubst, listMax, listMin, scenarioRef]
  refine ⟨hscore, hrmse, ?_, ?_, ?_⟩
  · norm_num [get_shape_grade]
  · norm_num [calculate_rom_metrics, ptp3, epsSubst, mean3, listMax, listMin, scenarioRef]
  · rw [hratios]
    norm_num [get_rom_grade, fcLt, fcGt, fcLe, fcGe]

/-- C3 counterexample: `calculate_mdtw_with_sensitivity` contains no length
validation; two single-point trajectories (fewer than 2 points) produce an
ordinary result — a perfect score of 100 with zero RMSE — rather than any
`InvalidInputError` (no such error exists anywhere in the repository). -/
theorem C3_counterexample :
    (calculate_mdtw_with_sensitivity [⟨5, 6, 7⟩] [⟨1, 2, 3⟩] 3 10).score = 100 ∧
    (calculate_mdtw_with_sensitivity [⟨5, 6, 7⟩] [⟨1, 2, 3⟩] 3 10).global_rmse = 0 := by
  have hc : centerTraj [(⟨5, 6, 7⟩ : Vec3)] = [⟨0, 0, 0⟩] := by
    norm_num [centerTraj, centroid]
  have hc2 : centerTraj [(⟨1, 2, 3⟩ : Vec3)] = [⟨0, 0, 0⟩] := by
    norm_num [centerTraj, centroid]
  have hacc : dtw_acc_cost [(⟨0, 0, 0⟩ : Vec3)] [(⟨0, 0, 0⟩ : Vec3)] 10 = 0 := by
    norm_num [dtw_acc_cost, dtwAcc, dtwAccF, effRadius, inBand, minO3, minO, sqDist, ptAt,
      List.getD]
  constructor
  · simp only [calculate_mdtw_with_sensitivity, hc, hc2]
    rw [hacc]
    norm_num [Real.sqrt_zero]
    unfold final_score
    norm_num [Real.exp_zero]
    have hp := pyRound2_intCast 100
    norm_num at hp
    exact hp
  · simp only [calculate_mdtw_with_sensitivity, hc, hc2]
    rw [hacc]
    norm_num [Real.sqrt_zero]

/-- C3 (amended): a comparison of two 1-point trajectories signals nothing:
centering collapses each to the origin, so for any points and any
sensitivity the call returns global RMSE 0 and the rounded perfect score
`round(100 * exp(0), 2) = 100`. -/
theorem C3_no_short_input_validation (p q : Vec3) (s : ℝ) :
    (calculate_mdtw_with_sensitivity [p] [q] s 10).global_rmse = 0 ∧
    (calculate_mdtw_with_sensitivity [p] [q] s 10).score = final_score s 0 ∧
    final_score s 0 = pyRound2 100 ∧
    pyRound2 100 = 100 := by
  have hc : ∀ v : Vec3, centerTraj [v] = [⟨0, 0, 0⟩] := by
    intro v
    norm_num [centerTraj, centroid]
  have hacc : dtw_acc_cost [(⟨0, 0, 0⟩ : Vec3)] [(⟨0, 0, 0⟩ : Vec3)] 10 = 0 := by
    norm_num [dtw_acc_cost, dtwAcc, dtwAccF, effRadius, inBand, minO3, minO, sqDist, ptAt,
      List.getD]
  refine ⟨?_, ?_, ?_, ?_⟩
  · simp only [calculate_mdtw_with_sensitivity, hc]
    rw [hacc]
    norm_num [Real.sqrt_zero]
  · simp only [calculate_mdtw_with_sensitivity, hc]
    rw [hacc]
    norm_num [Real.sqrt_zero]
  · unfold final_score
    norm_num [Real.exp_zero]
  · have hp := pyRound2_intCast 100
    norm_num at hp
    exact hp

/-- C4 counterexample: the returned score is rounded to two decimals, so it
is not strictly decreasing in the RMSE: at sensitivity 3 the RMSE values
10 and 11 both give score exactly 0. -/
theorem C4_counterexample : ¬ (final_score 3 11 < final_score 3 10) := by
  have hebound : Real.exp (-(30:ℝ)) < 1/20000 := by
    rw [Real.exp_neg]
    rw [inv_lt_comm₀ (Real.exp_pos 30) (by norm_num)]
    calc (1 / 20000 : ℝ)⁻¹ = 20000 := by norm_num
    _ < Real.exp 30 := twentythousand_lt_exp_thirty
  have h10 : final_score 3 10 = 0 := by
    unfold final_score
    apply pyRound2_of_small
    · positivity
    · calc 100 * Real.exp (-3 * 10) = 100 * Real.exp (-30) := by norm_num
      _ < 100 * (1/20000) := by
          exact mul_lt_mul_of_pos_left hebound (by norm_num)
      _ = 1/200 := by norm_num
  have h11 : final_score 3 11 = 0 := by
    unfold final_score
    apply pyRound2_of_small
    · positivity
    · have hle : Real.exp (-(33:ℝ)) ≤ Real.exp (-(30:ℝ)) :=
        Real.exp_le_exp.mpr (by norm_num)
      calc 100 * Real.exp (-3 * 11) = 100 * Real.exp (-33) := by norm_num
      _ ≤ 100 * Real.exp (-30) := mul_le_mul_of_nonneg_left hle (by norm_num)
      _ < 100 * (1/20000) := mul_lt_mul_of_pos_left hebound (by norm_num)
      _ = 1/200 := by norm_num
  rw [h10, h11]
  exact lt_irrefl 0

/-- C4 (amended): for fixed positive sensitivity the unrounded score
`100 * exp(-s * rmse)` is strictly decreasing in the RMSE, and the score
the engine returns is its two-decimal rounding — hence only weakly
decreasing (rounding merges nearby values, as the counterexample shows). -/
theorem C4_score_decay (t q : List Vec3) (s r1 r2 : ℝ) (rad : ℕ)
    (hs : 0 < s) (h12 : r1 < r2) :
    (calculate_mdtw_with_sensitivity t q s rad).score
      = final_score s ((calculate_mdtw_with_sensitivity t q s rad).global_rmse) ∧
    100 * Real.exp (-s * r2) < 100 * Real.exp (-s * r1) ∧
    final_score s r2 ≤ final_score s r1 := by
  have hmono : -s * r2 < -s * r1 := by nlinarith
  refine ⟨?_, ?_, ?_⟩
  · simp only [calculate_mdtw_with_sensitivity]
  · exact mul_lt_mul_of_pos_left (Real.exp_lt_exp.mpr hmono) (by norm_num)
  · unfold final_score
    apply pyRound2_mono
    exact mul_le_mul_of_nonneg_left (Real.exp_le_exp.mpr (le_of_lt hmono)) (by norm_num)

/-- C4 witness: the decay statement at sensitivity 3 for RMSE values
0 < 1, on the concrete pair of two-point trajectories. -/
theorem C4_witness :
    (calculate_mdtw_with_sensitivity pairT pairQ 3 10).score
      = final_score 3 ((calculate_mdtw_with_sensitivity pairT pairQ 3 10).global_rmse) ∧
    100 * Real.exp (-3 * 1) < 100 * Real.exp (-3 * 0) ∧
    final_score 3 1 ≤ final_score 3 0 :=
  C4_score_decay pairT pairQ 3 0 1 10 (by norm_num) (by norm_num)

theorem mdtw_score_eq (t q : List Vec3) (s : ℝ) (rad : ℕ) :
    (calculate_mdtw_with_sensitivity t q s rad).score
      = final_score s ((calculate_mdtw_with_sensitivity t q s rad).global_rmse) := by
  simp only [calculate_mdtw_with_sensitivity]

theorem pair_global_rmse (s : ℝ) :
    (calculate_mdtw_with_sensitivity pairT pairQ s 10).global_rmse = 2 := by
  have hacc : dtw_acc_cost (centerTraj pairT) (centerTraj pairQ) 10 = 8 := by
    norm_num [dtw_acc_cost, dtwAcc, dtwAccF, effRadius, inBand, minO3, minO, sqDist, ptAt,
      centerTraj, centroid, pairT, pairQ, List.getD]
  have hlen : (dtw_path_of (centerTraj pairT) (centerTraj pairQ) 10).length = 2 := by
    norm_num [dtw_path_of, dtwPathRevF, dtwAcc, dtwAccF, effRadius, inBand, minO3, minO,
      sqDist, ptAt, centerTraj, centroid, pairT, pairQ, List.getD]
  simp only [calculate_mdtw_with_sensitivity]
  rw [hacc, hlen]
  push_cast
  rw [← Real.sqrt_div (by norm_num : (0:ℝ) ≤ 8)]
  rw [show (8:ℝ)/2 = 4 by norm_num]
  rw [show (4:ℝ) = 2^2 by norm_num, Real.sqrt_sq (by norm_num : (0:ℝ) ≤ 2)]

/-- C8 counterexample: a non-positive sensitivity (-3) is accepted without
any `ConfigurationError` (no such error exists in the repository); the
call completes and even returns a score above the documented ceiling of
100, because the exponential grows instead of decaying. -/
theorem C8_counterexample :
    100 < (calculate_mdtw_with_sensitivity pairT pairQ (-3) 10).score := by
  have hs : (calculate_mdtw_with_sensitivity pairT pairQ (-3) 10).score
      = final_score (-3) 2 := by
    rw [mdtw_score_eq, pair_global_rmse]
  rw [hs]
  unfold final_score
  have h6 : (700:ℝ) ≤ 100 * Real.exp (-(-3) * 2) := by
    rw [show (-(-3):ℝ) * 2 = 6 by norm_num]
    have := Real.add_one_le_exp (6:ℝ)
    nlinarith
  have hp := le_pyRound2 (show ((700:ℤ):ℝ) ≤ 100 * Real.exp (-(-3) * 2) by push_cast; linarith)
  push_cast at hp
  linarith

/-- C8 (amended): the engine performs no configuration validation: every
sensitivity — non-positive ones included — is accepted and produces the
ordinary result `round(100 * exp(-s * rmse), 2)` on the same RMSE, and a
non-positive shape limit is accepted by `get_shape_grade`, which then
silently returns grade 0 for every positive RMSE; no `ConfigurationError`
is ever signalled. -/
theorem C8_no_config_validation :
    (∀ s : ℝ, (calculate_mdtw_with_sensitivity pairT pairQ s 10).global_rmse = 2 ∧
      (calculate_mdtw_with_sensitivity pairT pairQ s 10).score = final_score s 2) ∧
    (∀ rmse limit : ℚ, limit ≤ 0 → 0 < rmse → get_shape_grade rmse limit = 0) := by
  refine ⟨fun s => ⟨pair_global_rmse s, ?_⟩, ?_⟩
  · rw [mdtw_score_eq, pair_global_rmse s]
  · intro rmse limit hl h0
    simp only [get_shape_grade]
    rw [if_pos (by linarith)]

/-- C8 witness: sensitivity -1 runs to completion on the concrete pair,
and a negative shape limit -2 with RMSE 1 yields grade 0. -/
theorem C8_witness :
    ((calculate_mdtw_with_sensitivity pairT pairQ (-1) 10).global_rmse = 2 ∧
      (calculate_mdtw_with_sensitivity pairT pairQ (-1) 10).score = final_score (-1) 2) ∧
    get_shape_grade 1 (-2) = 0 := by
  obtain ⟨h1, h2⟩ := C8_no_config_validation
  exact ⟨h1 (-1), h2 1 (-2) (by norm_num) (by norm_num)⟩

theorem readTraj_tag (l : List HVal) (i : ℕ) (w : List Vec3)
    (hw : l.getD i (.traj []) = .traj w) : readTraj l i = w := by
  unfold readTraj
  rw [hw]

theorem readV3_tag (l : List HVal) (i : ℕ) (w : Vec3)
    (hw : l.getD i (.v3 ⟨0, 0, 0⟩) = .v3 w) : readV3 l i = w := by
  unfold readV3
  rw [hw]

theorem readTraj_append (h : Heap) (l : List HVal) {i : ℕ} (hi : i < h.length) :
    readTraj (h ++ l) i = readTraj h i := by
  unfold readTraj
  rw [List.getD_append _ _ _ _ hi]

theorem readTraj_frame (h : Heap) (a b c v : HVal) (i : ℕ) (hi : i < h.length) :
    readTraj ((((h ++ [a]) ++ [b]).set h.length v) ++ [c]) i = readTraj h i := by
  unfold readTraj
  rw [List.getD_append _ _ _ _ (by simp; omega)]
  rw [getD_set_ne _ _ _ _ _ (by omega)]
  rw [List.getD_append _ _ _ _ (by simp; omega)]
  rw [List.getD_append _ _ _ _ hi]

/-- C9: over the explicit array store, one comparison never mutates the
caller's inputs.  `calculate_rom_metrics` allocates both range arrays and
the ratios array and performs its only in-place write (the epsilon masked
assignment) on the freshly allocated reference-range cell, so the two
input cells are unchanged and the returned metrics coincide with the pure
function of the input values; the mean-centering step of
`calculate_mdtw_with_sensitivity` allocates two fresh derived sequences
holding exactly the centered inputs and leaves the input cells
unchanged. -/
theorem C9_engine_preserves_inputs (h : Heap) (refId patId tId qId : ℕ)
    (href : refId < h.length) (hpat : patId < h.length)
    (ht : tId < h.length) (hq : qId < h.length) :
    (readTraj (calculate_rom_metrics_heap h refId patId).1 refId = readTraj h refId ∧
     readTraj (calculate_rom_metrics_heap h refId patId).1 patId = readTraj h patId ∧
     (calculate_rom_metrics_heap h refId patId).2 =
       calculate_rom_metrics (readTraj h refId) (readTraj h patId)) ∧
    (readTraj (center_heap h tId qId).1 tId = readTraj h tId ∧
     readTraj (center_heap h tId qId).1 qId = readTraj h qId ∧
     readTraj (center_heap h tId qId).1 (center_heap h tId qId).2.1
       = centerTraj (readTraj h tId) ∧
     readTraj (center_heap h tId qId).1 (center_heap h tId qId).2.2
       = centerTraj (readTraj h qId)) := by
  constructor
  · simp only [calculate_rom_metrics_heap, halloc, hwrite]
    set ref := readTraj h refId with href_def
    set pat := readTraj h patId with hpat_def
    set A : HVal := .v3 (ptp3 ref) with hA_def
    set B : HVal := .v3 (ptp3 pat) with hB_def
    have hlenA : (h ++ [A]).length = h.length + 1 := by simp
    have hA : readV3 ((h ++ [A]) ++ [B]) h.length = ptp3 ref := by
      apply readV3_tag
      rw [List.getD_append _ _ _ _ (by simp)]
      exact getD_append_self h A _
    have hBset : readV3 (((h ++ [A]) ++ [B]).set h.length
        (.v3 (epsSubst (readV3 ((h ++ [A]) ++ [B]) h.length)))) (h ++ [A]).length
        = ptp3 pat := by
      apply readV3_tag
      rw [getD_set_ne _ _ _ _ _ (by omega)]
      exact getD_append_self (h ++ [A]) B _
    have hAset : readV3 (((h ++ [A]) ++ [B]).set h.length
        (.v3 (epsSubst (readV3 ((h ++ [A]) ++ [B]) h.length)))) h.length
        = epsSubst (ptp3 ref) := by
      apply readV3_tag
      rw [getD_set_self _ _ _ _ (by simp)]
      rw [hA]
    refine ⟨readTraj_frame h A B _ _ refId href, readTraj_frame h A B _ _ patId hpat, ?_⟩
    rw [hBset, hAset]
    simp only [calculate_rom_metrics]
  · simp only [center_heap, halloc]
    set T : HVal := .traj (centerTraj (readTraj h tId)) with hT_def
    refine ⟨?_, ?_, ?_, ?_⟩
    · rw [readTraj_append _ _ (by simp; omega), readTraj_append _ _ ht]
    · rw [readTraj_append _ _ (by simp; omega), readTraj_append _ _ hq]
    · apply readTraj_tag
      rw [List.getD_append _ _ _ _ (by simp)]
      exact getD_append_self h T _
    · have hqread : readTraj (h ++ [T]) qId = readTraj h qId := readTraj_append _ _ hq
      rw [hqread]
      apply readTraj_tag
      exact getD_append_self (h ++ [T]) _ _

/-- C9 witness: the frame property on a concrete two-cell store holding
the worked-scenario reference and the two-point query. -/
theorem C9_witness :
    (readTraj (calculate_rom_metrics_heap [.traj scenarioRef, .traj pairQ] 0 1).1 0
        = readTraj [.traj scenarioRef, .traj pairQ] 0 ∧
      readTraj (calculate_rom_metrics_heap [.traj scenarioRef, .traj pairQ] 0 1).1 1
        = readTraj [.traj scenarioRef, .traj pairQ] 1 ∧
      (calculate_rom_metrics_heap [.traj scenarioRef, .traj pairQ] 0 1).2 =
        calculate_rom_metrics (readTraj [.traj scenarioRef, .traj pairQ] 0)
          (readTraj [.traj scenarioRef, .traj pairQ] 1)) ∧
    (readTraj (center_heap [.traj scenarioRef, .traj pairQ] 0 1).1 0
        = readTraj [.traj scenarioRef, .traj pairQ] 0 ∧
      readTraj (center_heap [.traj scenarioRef, .traj pairQ] 0 1).1 1
        = readTraj [.traj scenarioRef, .traj pairQ] 1 ∧
      readTraj (center_heap [.traj scenarioRef, .traj pairQ] 0 1).1
          (center_heap [.traj scenarioRef, .traj pairQ] 0 1).2.1
        = centerTraj (readTraj [.traj scenarioRef, .traj pairQ] 0) ∧
      readTraj (center_heap [.traj scenarioRef, .traj pairQ] 0 1).1
          (center_heap [.traj scenarioRef, .traj pairQ] 0 1).2.2
        = centerTraj (readTraj [.traj scenarioRef, .traj pairQ] 1)) :=
  C9_engine_preserves_inputs [.traj scenarioRef, .traj pairQ] 0 1 0 1
    (by norm_num) (by norm_num) (by norm_num) (by norm_num)
